import Mathlib

/-!
Shallow embedding of the Redirx matching pipeline (src/redirx/stages.py,
src/redirx/lib.py, src/redirx/config.py, backend/services/pipeline_runner.py).

Modelling conventions:
* Python floats are modelled as rationals (`ℚ`); the thresholds and scores
  appearing in the spec are exactly representable decimals.
* Python's `hash(page)` (which hashes the page's `html` string) is modelled by
  the `html` string itself, i.e. an injective content digest.
* The storage collaborator (Supabase) is abstracted as a deterministic oracle:
  the set of stored old-page embedding URLs, and a `find_similar` function
  keyed by the queried old page's URL (the query vector is a function of the
  page, and the database is not mutated by the pairing loop).
* Python `set`s of `WebPage` / `Mapping` are modelled as lists with an
  insert-if-absent operation using the classes' `__eq__` keys
  (`WebPage.__eq__` compares `html` only; `Mapping.__eq__` compares the
  `(old_page, new_page)` pair, hence the `(old_page.html, new_page.html)` key).
-/

namespace Redirx

/-- `WebPage` from stages.py: a URL together with its raw HTML. -/
structure WebPage where
  url : String
  html : String
deriving DecidableEq, Repr

/-- `WebPage.__eq__`: equality is based on HTML content only, the URL is
ignored. -/
def webpageEq (a b : WebPage) : Bool :=
  a.html == b.html

/-- `Mapping` from stages.py: an (old page → new page) redirect candidate. -/
structure Mapping where
  old_page : WebPage
  new_page : WebPage
  confidence_score : ℚ
  match_type : String
  needs_review : Bool
deriving DecidableEq, Repr

/-- `Mapping.__eq__`: equality is based on the (old page, new page) pair,
with pages compared by `WebPage.__eq__` (HTML only). -/
def mappingEq (a b : Mapping) : Bool :=
  webpageEq a.old_page b.old_page && webpageEq a.new_page b.new_page

/-- Python `set.add` on a set of `WebPage` (hash/eq by `html`): a no-op if an
equal element is already present. -/
def insertPage (s : List WebPage) (p : WebPage) : List WebPage :=
  if s.any (fun q => webpageEq q p) then s else s ++ [p]

/-- Python `set.add` on a set of `Mapping`. -/
def insertMapping (s : List Mapping) (m : Mapping) : List Mapping :=
  if s.any (fun m2 => mappingEq m2 m) then s else s ++ [m]

/-- Membership of a `WebPage` in a Python set of `WebPage` (`p in s` /
`p not in s`), which compares by HTML content. -/
def memPage (s : List WebPage) (p : WebPage) : Bool :=
  s.any (fun q => webpageEq q p)

-- =========================
-- Config (config.py defaults)
-- =========================

/-- `Config.HIGH_CONFIDENCE_THRESHOLD` default `0.85`. -/
def HIGH_CONFIDENCE_THRESHOLD : ℚ := 85/100

/-- `Config.MEDIUM_CONFIDENCE_THRESHOLD` default `0.7`. -/
def MEDIUM_CONFIDENCE_THRESHOLD : ℚ := 7/10

/-- `Config.AMBIGUITY_GAP_THRESHOLD` default `0.1`. -/
def AMBIGUITY_GAP_THRESHOLD : ℚ := 1/10

-- =========================
-- PairingStage helpers
-- =========================

/-- A row returned by `WebPageEmbeddingDB.find_similar_pages`: a candidate
new-page URL with its similarity score. -/
structure SimRec where
  url : String
  similarity : ℚ
deriving DecidableEq, Repr

/-- Python `max(valid_matches, key=lambda p: p['similarity'])`: the first
element attaining the maximal similarity. -/
def maxBySimilarity (x : SimRec) (xs : List SimRec) : SimRec :=
  xs.foldl (fun best p => if best.similarity < p.similarity then p else best) x

/-- `PairingStage._find_best_match`: filter candidates by the minimum
threshold (0.7) and return the highest scoring one, `none` if no candidate
qualifies. -/
def find_best_match (similar_pages : List SimRec) : Option SimRec :=
  match similar_pages.filter (fun p => MEDIUM_CONFIDENCE_THRESHOLD ≤ p.similarity) with
  | [] => none
  | x :: xs => some (maxBySimilarity x xs)

/-- Stable insertion into a list of candidates sorted by descending
similarity (Python `sorted(..., reverse=True)`). -/
def insertDesc (r : SimRec) : List SimRec → List SimRec
  | [] => [r]
  | x :: xs => if x.similarity < r.similarity then r :: x :: xs else x :: insertDesc r xs

/-- Sort candidates by descending similarity. -/
def sortDesc (l : List SimRec) : List SimRec :=
  l.foldr insertDesc []

/-- `PairingStage._is_ambiguous`: the match is ambiguous when the gap between
the top score and the second-best candidate's score is below
`AMBIGUITY_GAP_THRESHOLD`. -/
def is_ambiguous (top_score : ℚ) (similar_pages : List SimRec) : Bool :=
  if similar_pages.length < 2 then false
  else
    match (sortDesc similar_pages).get? 1 with
    | some second => decide (top_score - second.similarity < AMBIGUITY_GAP_THRESHOLD)
    | none => false

/-- `PairingStage._create_mapping`: band the similarity score into a match
type and review flag. -/
def create_mapping (old_page new_page : WebPage) (similarity_score : ℚ)
    (similar_pages : List SimRec) : Mapping :=
  if (9:ℚ)/10 ≤ similarity_score then
    ⟨old_page, new_page, similarity_score, "semantic_high", false⟩
  else if HIGH_CONFIDENCE_THRESHOLD ≤ similarity_score then
    ⟨old_page, new_page, similarity_score, "semantic_medium",
      is_ambiguous similarity_score similar_pages⟩
  else if MEDIUM_CONFIDENCE_THRESHOLD ≤ similarity_score then
    ⟨old_page, new_page, similarity_score, "semantic_low", true⟩
  else
    ⟨old_page, new_page, similarity_score, "semantic_very_low", true⟩

-- =========================
-- PairingStage.execute
-- =========================

/-- The storage/vector-search collaborator as seen by `PairingStage.execute`,
abstracted as a deterministic oracle: the URLs that have a stored `old`-site
embedding, and the result of `find_similar_pages` for the query vector of a
given old page (keyed by that page's URL; the database is not mutated during
the pairing loop). -/
structure PairingEnv where
  old_embedding_urls : List String
  find_similar : String → List SimRec

/-- Mutable loop state of `PairingStage.execute`: the `matched_old_pages` and
`matched_new_pages` Python sets and the `all_mappings` set. -/
structure PairingState where
  matched_old : List WebPage
  matched_new : List WebPage
  all_mappings : List Mapping
deriving Repr

/-- One iteration of the `for old_page in unmatched_old_pages` loop of
`PairingStage.execute`: look up the page's stored embedding, query and filter
similarity candidates, pick the best match, resolve it to a `WebPage`, and on
success record the new mapping. -/
def processOldPage (env : PairingEnv) (unmatched_new_pages : List WebPage)
    (st : PairingState) (old_page : WebPage) : PairingState :=
  if ¬ env.old_embedding_urls.contains old_page.url then
    st
  else
    let similar :=
      (env.find_similar old_page.url).filter
        (fun p => ¬ st.matched_new.any (fun matched => matched.url == p.url))
    if similar.isEmpty then
      st
    else
      match find_best_match similar with
      | none => st
      | some best =>
        match unmatched_new_pages.find? (fun p => p.url == best.url) with
        | none => st
        | some new_page =>
          let mapping := create_mapping old_page new_page best.similarity similar
          { matched_old := insertPage st.matched_old old_page
            matched_new := insertPage st.matched_new new_page
            all_mappings := insertMapping st.all_mappings mapping }

/-- The state of `PairingStage.execute` after processing the existing
mappings produced by `HtmlPruneStage`. -/
def pairingInitState (existing : List Mapping) : PairingState :=
  { matched_old := existing.foldl (fun s m => insertPage s m.old_page) []
    matched_new := existing.foldl (fun s m => insertPage s m.new_page) []
    all_mappings := existing.foldl insertMapping [] }

/-- `unmatched_old_pages = [p for p in old_pages if p not in matched_old_pages]`. -/
def pairingUnmatchedOld (old_pages : List WebPage) (existing : List Mapping) : List WebPage :=
  old_pages.filter (fun p => ¬ memPage (pairingInitState existing).matched_old p)

/-- `unmatched_new_pages = [p for p in new_pages if p not in matched_new_pages]`. -/
def pairingUnmatchedNew (new_pages : List WebPage) (existing : List Mapping) : List WebPage :=
  new_pages.filter (fun p => ¬ memPage (pairingInitState existing).matched_new p)

/-- `PairingStage.execute`: process existing exact-HTML mappings, then run
the semantic pairing loop over the unmatched old pages. -/
def pairingExecute (env : PairingEnv) (old_pages new_pages : List WebPage)
    (existing : List Mapping) : PairingState :=
  (pairingUnmatchedOld old_pages existing).foldl
    (processOldPage env (pairingUnmatchedNew new_pages existing))
    (pairingInitState existing)

-- =========================
-- URL parsing (urllib.parse.urlparse, as used by the stages)
-- =========================

/-- The suffix after the first occurrence of `sep` in `l`, `none` when `sep`
does not occur. -/
def dropThroughSep (sep : List Char) : List Char → Option (List Char)
  | [] => none
  | c :: t => if sep.isPrefixOf (c :: t) then some ((c :: t).drop sep.length)
              else dropThroughSep sep t

/-- Drop the query string and fragment from a path
(`urlparse` keeps them in separate components). -/
def stripQueryFrag (l : List Char) : List Char :=
  l.takeWhile (fun c => c != '?' && c != '#')

/-- `urlparse(url).path` for the URL shapes the pipeline consumes: strip the
`scheme://netloc` prefix and keep everything from the first following `/` on
(minus query and fragment); a string without `://` is treated as a bare path. -/
def urlPath (url : String) : String :=
  match dropThroughSep "://".toList url.toList with
  | none => String.mk (stripQueryFrag url.toList)
  | some rest => String.mk (stripQueryFrag (rest.dropWhile (· != '/')))

-- =========================
-- UrlPruneStage
-- =========================

/-- `UrlPruneStage.BLOCKED_EXTENSIONS`. -/
def BLOCKED_EXTENSIONS : List String :=
  [".css", ".js", ".json", ".xml",
   ".png", ".jpg", ".jpeg", ".gif", ".svg", ".ico", ".webp",
   ".woff", ".woff2", ".ttf", ".eot", ".otf",
   ".pdf", ".zip", ".tar", ".gz", ".rar",
   ".mp4", ".mp3", ".avi", ".mov", ".wav",
   ".txt", ".csv", ".log"]

/-- `path.rsplit('.', 1)[-1]`: the portion of the path after its last dot
(the whole path when it has no dot). -/
def afterLastDot (l : List Char) : List Char :=
  (l.reverse.takeWhile (fun c => c != '.')).reverse

/-- `path.split('/')[-1]`: the portion of the path after its last slash. -/
def lastSegment (l : List Char) : List Char :=
  (l.reverse.takeWhile (fun c => c != '/')).reverse

/-- `UrlPruneStage._sanitizer`: keep a URL unless its path's extension is in
the blocklist; `.html`/`.htm` files, extensionless URLs and everything else
fall through to `True`. -/
def sanitizer (url : String) : Bool :=
  let path := (urlPath url).toList
  if path.contains '.' &&
      BLOCKED_EXTENSIONS.contains ("." ++ String.mk ((afterLastDot path).map Char.toLower)) then
    false
  else if ".html".toList.isSuffixOf path || ".htm".toList.isSuffixOf path then
    true
  else if !((lastSegment path).contains '.') then
    true
  else
    true

/-- `UrlPruneStage.execute`: filter both URL lists through `_sanitizer`. -/
def urlPruneExecute (input : List String × List String) : List String × List String :=
  (input.1.filter sanitizer, input.2.filter sanitizer)

-- =========================
-- ExactUrlMatchStage
-- =========================

/-- `new_url_map[p]`: the `{path: url}` dict built from `new_urls` — on
duplicate paths the later URL overwrites the earlier one. -/
def newUrlMapLookup (new_urls : List String) (p : String) : Option String :=
  new_urls.reverse.find? (fun u => urlPath u == p)

/-- `ExactUrlMatchStage.execute`: returns the matched `(old_url, new_url)`
pairs (persisted as `exact_url` mappings with confidence 1.0 and no review
flag) together with the unmatched old and new URL lists. -/
def exactUrlMatchExecute (old_urls new_urls : List String) :
    List (String × String) × List String × List String :=
  let matched_pairs :=
    old_urls.filterMap (fun o => (newUrlMapLookup new_urls (urlPath o)).map (fun n => (o, n)))
  let unmatched_old :=
    old_urls.filter (fun o => (newUrlMapLookup new_urls (urlPath o)).isNone)
  let matched_new_paths :=
    old_urls.filterMap (fun o =>
      if (newUrlMapLookup new_urls (urlPath o)).isSome then some (urlPath o) else none)
  let unmatched_new :=
    new_urls.filter (fun u => ¬ matched_new_paths.contains (urlPath u))
  (matched_pairs, unmatched_old, unmatched_new)

-- =========================
-- WebScraperStage / WebPage.scrape
-- =========================

/-- Outcome of the fetch collaborator for one URL: an HTTP response with a
status code and body, or one of the error classes handled by
`WebPage.scrape` (`aiohttp.ClientError`, `asyncio.TimeoutError`, any other
exception). -/
inductive FetchResult where
  | success (status : Nat) (body : String)
  | clientError
  | timeout
  | otherError
deriving DecidableEq, Repr

/-- `WebPage.scrape`: a 200 response yields a page with the response body as
HTML; a non-200 status or any error yields a page with empty HTML. -/
def scrape (fetch : String → FetchResult) (url : String) : WebPage :=
  match fetch url with
  | .success status body => if status = 200 then ⟨url, body⟩ else ⟨url, ""⟩
  | .clientError => ⟨url, ""⟩
  | .timeout => ⟨url, ""⟩
  | .otherError => ⟨url, ""⟩

/-- `WebScraperStage.execute`: scrape every old and new URL concurrently and
return the two page lists. -/
def webScraperExecute (fetch : String → FetchResult)
    (input : List String × List String) : List WebPage × List WebPage :=
  (input.1.map (scrape fetch), input.2.map (scrape fetch))

-- =========================
-- HtmlPruneStage
-- =========================

/-- `HtmlPruneStage.MIN_HTML_LENGTH`. -/
def MIN_HTML_LENGTH : Nat := 100

/-- `new_page_map[h]`: the `{hash(page): page}` dict built from the valid new
pages, with `hash(page)` modelled as the page's `html` string — on duplicate
HTML the later page overwrites the earlier one. -/
def newPageMapLookup (valid_new_pages : List WebPage) (h : String) : Option WebPage :=
  valid_new_pages.reverse.find? (fun p => p.html == h)

/-- One iteration of the `for page in valid_old_pages` loop of
`HtmlPruneStage.execute`, threading the `mappings` set and the
`matched_new_hashes` set. -/
def htmlPruneStep (valid_new_pages : List WebPage)
    (acc : List Mapping × List String) (page : WebPage) : List Mapping × List String :=
  match newPageMapLookup valid_new_pages page.html with
  | some new_page =>
    if acc.2.contains page.html then acc
    else (insertMapping acc.1 ⟨page, new_page, 1, "exact_html", false⟩, page.html :: acc.2)
  | none => acc

/-- `HtmlPruneStage.execute`: filter out pages with HTML shorter than
`MIN_HTML_LENGTH`, match old pages against identical-HTML new pages
(first match wins per HTML digest), and return the original page lists
unchanged together with the mappings found. -/
def htmlPruneExecute (old_pages new_pages : List WebPage) :
    List WebPage × List WebPage × List Mapping :=
  let valid_new_pages := new_pages.filter (fun p => MIN_HTML_LENGTH ≤ p.html.length)
  let valid_old_pages := old_pages.filter (fun p => MIN_HTML_LENGTH ≤ p.html.length)
  let result := valid_old_pages.foldl (htmlPruneStep valid_new_pages) ([], [])
  (old_pages, new_pages, result.1)

-- =========================
-- EmbedStage
-- =========================

/-- An embedding vector returned by the provider. -/
abbrev Vec := List ℚ

/-- The `for attempt in range(max_retries)` loop of
`EmbedStage._generate_embedding_with_retry`, with `remaining` iterations
left at attempt index `attempt`. `outcome i` is what the provider call does
on attempt `i` (`some v` success, `none` exception). Returns the produced
embedding (`none` models the final re-raise), the number of attempts made,
and the list of backoff sleeps (in seconds) performed between consecutive
attempts. -/
def retryLoop (outcome : Nat → Option Vec) (attempt : Nat) :
    Nat → Option Vec × Nat × List Nat
  | 0 => (none, 0, [])
  | r + 1 =>
    match outcome attempt with
    | some v => (some v, 1, [])
    | none =>
      match r with
      | 0 => (none, 1, [])
      | _ + 1 =>
        let rest := retryLoop outcome (attempt + 1) r
        (rest.1, rest.2.1 + 1, 2 ^ attempt :: rest.2.2)

/-- `EmbedStage._generate_embedding_with_retry` with the default
`max_retries=3`. -/
def generate_embedding_with_retry (outcome : Nat → Option Vec) :
    Option Vec × Nat × List Nat :=
  retryLoop outcome 0 3

/-- `EmbedStage._generate_and_store_embedding`: run the retried provider
call; on success return the embedding row to insert, on exhaustion the
exception is caught and logged and nothing is stored. Total — it never
raises to the caller of the batch. -/
def generate_and_store_embedding (outcome : Nat → Option Vec) (page : WebPage) :
    Option (String × Vec) :=
  match (generate_embedding_with_retry outcome).1 with
  | some v => some (page.url, v)
  | none => none

/-- The batches formed by `EmbedStage._process_pages`
(`pages[i:i+batch_size]` for `i in range(0, len(pages), batch_size)`),
specialised to the fixed `batch_size = 10`. -/
def chunks10 : List WebPage → List (List WebPage)
  | [] => []
  | p :: ps => ((p :: ps).take 10) :: chunks10 ((p :: ps).drop 10)
termination_by l => l.length
decreasing_by simp [List.length_drop]; omega

/-- The pages for which `EmbedStage._process_pages` issues a
`_generate_and_store_embedding` call, in batch order. -/
def process_pages_calls (pages : List WebPage) : List WebPage :=
  (chunks10 pages).flatten

/-- The `(page, site_type)` pairs for which `EmbedStage.execute` issues an
embedding call: all old pages, then all new pages — the `mappings` component
of the input is not consulted. -/
def embedStageCalls (old_pages new_pages : List WebPage) (_mappings : List Mapping) :
    List (WebPage × String) :=
  (process_pages_calls old_pages).map (fun p => (p, "old")) ++
    (process_pages_calls new_pages).map (fun p => (p, "new"))

-- =========================
-- Pipeline (lib.py) and pipeline_runner.py
-- =========================

/-- The stages of the pipeline, by name. -/
inductive StageTag where
  | urlPrune
  | blogPrune
  | exactUrlMatch
  | webScraper
  | htmlPrune
  | embed
  | pairing
deriving DecidableEq, Repr

/-- `Pipeline.default_pipeline`: the stage list used when no custom stage
list is supplied. -/
def default_pipeline : List StageTag :=
  [StageTag.urlPrune, StageTag.webScraper, StageTag.htmlPrune,
   StageTag.embed, StageTag.pairing]

/-- The number of network fetch calls a default-pipeline run performs:
`WebScraperStage` fetches every URL it receives, and the only stage before
it in `default_pipeline` is `UrlPruneStage`. -/
def pipelineFetchCalls (old_urls new_urls : List String) : Nat :=
  (urlPruneExecute (old_urls, new_urls)).1.length +
    (urlPruneExecute (old_urls, new_urls)).2.length

/-- A call made against `MigrationSessionDB` during a run. -/
inductive SessionOp where
  | createSession (status : String)
  | updateSessionStatus (status : String)
deriving DecidableEq, Repr

/-- The migration-session status resulting from a list of session
operations. -/
def sessionStatusAfter (ops : List SessionOp) : Option String :=
  ops.foldl
    (fun _st op =>
      match op with
      | .createSession s => some s
      | .updateSessionStatus s => some s)
    none

/-- `backend/services/pipeline_runner.run_pipeline`, modelled over the
outcome of the pipeline execution (`.ok` = all stages finished, `.error e` =
a fatal error, e.g. a persistence failure, aborted the run): validates the
CSV URL lists, creates the migration session with status `pending`, runs the
pipeline, and either returns the session id or wraps and re-raises the error
as a `RuntimeError`. Returns the session operations performed and the
call's result. -/
def run_pipeline_model (old_urls new_urls : List String)
    (pipelineOutcome : Except String Unit) :
    List SessionOp × Except String String :=
  if old_urls.isEmpty then
    ([], .error "No valid URLs found in CSV file")
  else if new_urls.isEmpty then
    ([], .error "No valid URLs found in CSV file")
  else
    let ops := [SessionOp.createSession "pending"]
    match pipelineOutcome with
    | .ok _ => (ops, .ok "session_id")
    | .error e => (ops, .error ("Pipeline execution failed: " ++ e))

-- =========================
-- Theorems
-- =========================

/-- The two-candidate list seen by the classifier: the best candidate with
`top` and the second-best with `second`. -/
def twoCandidates (u1 u2 : String) (top second : ℚ) : List SimRec :=
  [⟨u1, top⟩, ⟨u2, second⟩]

lemma sortDesc_two (u1 u2 : String) (top second : ℚ) (h : second ≤ top) :
    sortDesc (twoCandidates u1 u2 top second) = twoCandidates u1 u2 top second ∨
    (second = top ∧
      sortDesc (twoCandidates u1 u2 top second) = twoCandidates u2 u1 second top) := by
  simp only [twoCandidates, sortDesc, List.foldr, insertDesc]
  by_cases hlt : second < top
  · simp [hlt, not_lt.mpr h]
  · right
    have heq : second = top := le_antisymm h (not_lt.mp hlt)
    simp [hlt, heq]

lemma is_ambiguous_two (u1 u2 : String) (top second : ℚ) (h : second ≤ top) :
    is_ambiguous top (twoCandidates u1 u2 top second) =
      decide (top - second < AMBIGUITY_GAP_THRESHOLD) := by
  rcases sortDesc_two u1 u2 top second h with hs | ⟨heq, hs⟩
  · rw [is_ambiguous, hs]
    simp [twoCandidates]
  · subst heq
    rw [is_ambiguous, hs]
    simp [twoCandidates]

lemma find_best_match_two_some (u1 u2 : String) (top second : ℚ)
    (h : second ≤ top) (htop : MEDIUM_CONFIDENCE_THRESHOLD ≤ top) :
    find_best_match (twoCandidates u1 u2 top second) = some ⟨u1, top⟩ := by
  by_cases hsec : MEDIUM_CONFIDENCE_THRESHOLD ≤ second
  · simp [find_best_match, twoCandidates, maxBySimilarity, htop, hsec, not_lt.mpr h]
  · simp [find_best_match, twoCandidates, maxBySimilarity, htop, hsec]

/-- C1: for an old page whose best remaining candidate scores `top` and whose
second-best scores `second`, the classification is a total function of
`(top, second)`: `top ≥ 0.90` gives `semantic_high` with no review;
`0.85 ≤ top < 0.90` gives `semantic_medium` needing review iff
`top - second < 0.10`; `0.70 ≤ top < 0.85` gives `semantic_low` needing
review; `top < 0.70` gives no best match, hence no mapping (the old page is
orphaned); and whenever `top ≥ 0.70` the selected best candidate is indeed
the one scoring `top`. -/
theorem c1_confidence_banding (op np : WebPage) (u1 u2 : String) (top second : ℚ)
    (h : second ≤ top) :
    ((9:ℚ)/10 ≤ top →
      create_mapping op np top (twoCandidates u1 u2 top second) =
        ⟨op, np, top, "semantic_high", false⟩) ∧
    ((85:ℚ)/100 ≤ top → top < 9/10 →
      create_mapping op np top (twoCandidates u1 u2 top second) =
        ⟨op, np, top, "semantic_medium", decide (top - second < 1/10)⟩) ∧
    ((7:ℚ)/10 ≤ top → top < 85/100 →
      create_mapping op np top (twoCandidates u1 u2 top second) =
        ⟨op, np, top, "semantic_low", true⟩) ∧
    (top < (7:ℚ)/10 → find_best_match (twoCandidates u1 u2 top second) = none) ∧
    ((7:ℚ)/10 ≤ top →
      find_best_match (twoCandidates u1 u2 top second) = some ⟨u1, top⟩) := by
  refine ⟨?_, ?_, ?_, ?_, ?_⟩
  · intro h9
    simp [create_mapping, h9]
  · intro h85 h9
    rw [create_mapping]
    rw [if_neg (by exact not_le.mpr h9)]
    rw [if_pos (by simpa [HIGH_CONFIDENCE_THRESHOLD] using h85)]
    rw [is_ambiguous_two u1 u2 top second h]
    rfl
  · intro h7 h85
    rw [create_mapping]
    rw [if_neg (by exact not_le.mpr (lt_trans h85 (by norm_num)))]
    rw [if_neg (by simpa [HIGH_CONFIDENCE_THRESHOLD] using not_le.mpr h85)]
    rw [if_pos (by simpa [MEDIUM_CONFIDENCE_THRESHOLD] using h7)]
  · intro h7
    have hsec : second < (7:ℚ)/10 := lt_of_le_of_lt h h7
    simp [find_best_match, twoCandidates, MEDIUM_CONFIDENCE_THRESHOLD,
      not_le.mpr h7, not_le.mpr hsec]
  · intro h7
    exact find_best_match_two_some u1 u2 top second h
      (by simpa [MEDIUM_CONFIDENCE_THRESHOLD] using h7)

/-- Witness for C1 at the spec's concrete instances: `top=0.95` gives
`semantic_high`/no-review; `top=0.85, second=0.70` gives
`semantic_medium`/no-review; `top=0.85, second=0.82` gives
`semantic_medium`/review; `top=0.70` gives `semantic_low`/review;
`top=0.50` gives no best match. -/
theorem c1_confidence_banding_witness :
    create_mapping ⟨"o", "a"⟩ ⟨"n", "b"⟩ (95/100) (twoCandidates "n1" "n2" (95/100) (8/10)) =
      ⟨⟨"o", "a"⟩, ⟨"n", "b"⟩, 95/100, "semantic_high", false⟩ ∧
    create_mapping ⟨"o", "a"⟩ ⟨"n", "b"⟩ (85/100) (twoCandidates "n1" "n2" (85/100) (7/10)) =
      ⟨⟨"o", "a"⟩, ⟨"n", "b"⟩, 85/100, "semantic_medium", false⟩ ∧
    create_mapping ⟨"o", "a"⟩ ⟨"n", "b"⟩ (85/100) (twoCandidates "n1" "n2" (85/100) (82/100)) =
      ⟨⟨"o", "a"⟩, ⟨"n", "b"⟩, 85/100, "semantic_medium", true⟩ ∧
    create_mapping ⟨"o", "a"⟩ ⟨"n", "b"⟩ (7/10) (twoCandidates "n1" "n2" (7/10) (5/10)) =
      ⟨⟨"o", "a"⟩, ⟨"n", "b"⟩, 7/10, "semantic_low", true⟩ ∧
    find_best_match (twoCandidates "n1" "n2" (5/10) (4/10)) = none := by
  refine ⟨?_, ?_, ?_, ?_, ?_⟩
  · exact (c1_confidence_banding ⟨"o", "a"⟩ ⟨"n", "b"⟩ "n1" "n2" (95/100) (8/10)
      (by norm_num)).1 (by norm_num)
  · rw [(c1_confidence_banding ⟨"o", "a"⟩ ⟨"n", "b"⟩ "n1" "n2" (85/100) (7/10)
      (by norm_num)).2.1 (by norm_num) (by norm_num)]
    norm_num
  · rw [(c1_confidence_banding ⟨"o", "a"⟩ ⟨"n", "b"⟩ "n1" "n2" (85/100) (82/100)
      (by norm_num)).2.1 (by norm_num) (by norm_num)]
    norm_num
  · exact (c1_confidence_banding ⟨"o", "a"⟩ ⟨"n", "b"⟩ "n1" "n2" (7/10) (5/10)
      (by norm_num)).2.2.1 (by norm_num) (by norm_num)
  · exact (c1_confidence_banding ⟨"o", "a"⟩ ⟨"n", "b"⟩ "n1" "n2" (5/10) (4/10)
      (by norm_num)).2.2.2.1 (by norm_num)

/-- A row inserted into the `url_mappings` table. -/
structure DbMappingRow where
  old_url : String
  new_url : String
  confidence_score : ℚ
  match_type : String
  needs_review : Bool
deriving DecidableEq, Repr

/-- The rows `ExactUrlMatchStage.execute` inserts for its matched pairs:
confidence 1.0, match type `exact_url`, no review. -/
def exactUrlMatchInsertedRows (old_urls new_urls : List String) : List DbMappingRow :=
  (exactUrlMatchExecute old_urls new_urls).1.map
    (fun p => ⟨p.1, p.2, 1, "exact_url", false⟩)

/-- C3 counterexample: the default pipeline contains no exact-URL-match
stage, so on `old=[http://a.com/x.html]`, `new=[http://b.com/x.html]` both
URLs survive `UrlPruneStage` and are fetched by `WebScraperStage` — the run
performs 2 network fetch calls, not 0 as the claim states. -/
theorem c3_counterexample :
    StageTag.exactUrlMatch ∉ default_pipeline ∧
    pipelineFetchCalls ["http://a.com/x.html"] ["http://b.com/x.html"] = 2 := by
  exact ⟨by decide, by decide⟩

/-- C3 amended: `ExactUrlMatchStage.execute`, run on
`old=[http://a.com/x.html]`, `new=[http://b.com/x.html]`, matches the pair by
path equality, would persist exactly one `exact_url` mapping with confidence
1.0 and no review flag, and leaves both candidate pools empty (so nothing
would remain to fetch); but `Pipeline.default_pipeline` does not include
`ExactUrlMatchStage`, so a default run of the pipeline fetches both URLs
instead. -/
theorem c3_amended_exact_url_scenario :
    exactUrlMatchExecute ["http://a.com/x.html"] ["http://b.com/x.html"] =
      ([("http://a.com/x.html", "http://b.com/x.html")], [], []) ∧
    exactUrlMatchInsertedRows ["http://a.com/x.html"] ["http://b.com/x.html"] =
      [⟨"http://a.com/x.html", "http://b.com/x.html", 1, "exact_url", false⟩] ∧
    StageTag.exactUrlMatch ∉ default_pipeline ∧
    pipelineFetchCalls ["http://a.com/x.html"] ["http://b.com/x.html"] = 2 := by
  refine ⟨by decide, by decide, by decide, by decide⟩

lemma chunks10_flatten (l : List WebPage) : (chunks10 l).flatten = l := by
  induction l using chunks10.induct with
  | case1 => simp [chunks10]
  | case2 p ps ih =>
    rw [chunks10]
    simpa [List.flatten] using congrArg (List.append ((p :: ps).take 10)) ih
      |>.trans (List.take_append_drop 10 (p :: ps))

/-- C8 counterexample: an old page that already appears in a mapping handed
to `EmbedStage` (here an `exact_html` mapping from `HtmlPruneStage`) still
receives an embedding call — `EmbedStage.execute` never consults the
mappings set. -/
theorem c8_counterexample :
    (WebPage.mk "http://old.com/p" "samehtml", "old") ∈
      embedStageCalls [⟨"http://old.com/p", "samehtml"⟩] []
        [⟨⟨"http://old.com/p", "samehtml"⟩, ⟨"http://new.com/p", "samehtml"⟩,
          1, "exact_html", false⟩] := by
  unfold embedStageCalls process_pages_calls
  rw [chunks10_flatten, chunks10_flatten]
  simp

/-- C8 amended: `EmbedStage` attempts to generate and store an embedding for
every page in its input lists — all old pages and all new pages, in batch
order — regardless of the mappings produced by earlier stages; pages matched
by `ExactUrlMatchStage` would avoid embedding only because that stage removes
their URLs from the lists before scraping, not because `EmbedStage` excludes
mapped pages. -/
theorem c8_amended_embed_all_pages (old_pages new_pages : List WebPage)
    (mappings : List Mapping) :
    embedStageCalls old_pages new_pages mappings =
      old_pages.map (fun p => (p, "old")) ++ new_pages.map (fun p => (p, "new")) := by
  unfold embedStageCalls process_pages_calls
  rw [chunks10_flatten, chunks10_flatten]

/-- C9 counterexample: after a run of `run_pipeline` in which every stage
finishes, the only session operation performed is the creation of the
session with status `pending`; the session status is never updated to
`completed`. -/
theorem c9_counterexample :
    (run_pipeline_model ["http://a.com/x"] ["http://b.com/x"] (.ok ())).1 =
      [SessionOp.createSession "pending"] ∧
    sessionStatusAfter
        (run_pipeline_model ["http://a.com/x"] ["http://b.com/x"] (.ok ())).1 =
      some "pending" := by
  exact ⟨rfl, rfl⟩

/-- C9 amended: `run_pipeline` creates the run's session with status
`pending` and never updates it afterwards — after a successful run the
session remains `pending` rather than `completed`, and on a fatal pipeline
error (e.g. a persistence failure) the error is propagated to the caller
wrapped as `RuntimeError("Pipeline execution failed: ...")` while the session
likewise remains `pending` rather than being marked `failed`. -/
theorem c9_amended_session_status (old_urls new_urls : List String)
    (outcome : Except String Unit)
    (ho : old_urls ≠ []) (hn : new_urls ≠ []) :
    (∀ s, SessionOp.updateSessionStatus s ∉ (run_pipeline_model old_urls new_urls outcome).1) ∧
    sessionStatusAfter (run_pipeline_model old_urls new_urls outcome).1 = some "pending" ∧
    (∀ e, outcome = .error e →
      (run_pipeline_model old_urls new_urls outcome).2 =
        .error ("Pipeline execution failed: " ++ e)) ∧
    (outcome = .ok () →
      (run_pipeline_model old_urls new_urls outcome).2 = .ok "session_id") := by
  have hoe : old_urls.isEmpty = false := by simpa [List.isEmpty_iff] using ho
  have hne : new_urls.isEmpty = false := by simpa [List.isEmpty_iff] using hn
  refine ⟨?_, ?_, ?_, ?_⟩
  · intro s
    cases outcome <;> simp [run_pipeline_model, hoe, hne]
  · cases outcome <;> simp [run_pipeline_model, hoe, hne, sessionStatusAfter]
  · intro e he
    subst he
    simp [run_pipeline_model, hoe, hne]
  · intro hok
    subst hok
    simp [run_pipeline_model, hoe, hne]

/-- Witness for C9's amended statement at a concrete failing run: the error
is re-raised wrapped, no status update is performed, and the session stays
`pending`. -/
theorem c9_amended_session_status_witness :
    (∀ s, SessionOp.updateSessionStatus s ∉
      (run_pipeline_model ["http://a.com/x"] ["http://b.com/x"]
        (.error "persistence failure")).1) ∧
    sessionStatusAfter (run_pipeline_model ["http://a.com/x"] ["http://b.com/x"]
        (.error "persistence failure")).1 = some "pending" ∧
    (run_pipeline_model ["http://a.com/x"] ["http://b.com/x"]
        (.error "persistence failure")).2 =
      .error ("Pipeline execution failed: " ++ "persistence failure") := by
  have h := c9_amended_session_status ["http://a.com/x"] ["http://b.com/x"]
    (.error "persistence failure") (by decide) (by decide)
  exact ⟨h.1, h.2.1, h.2.2.1 "persistence failure" rfl⟩

lemma retryLoop_spec (outcome : Nat → Option Vec) :
    ∀ (rem att : Nat), 0 < rem →
      1 ≤ (retryLoop outcome att rem).2.1 ∧
      (retryLoop outcome att rem).2.1 ≤ rem ∧
      (retryLoop outcome att rem).2.2 =
        (List.range ((retryLoop outcome att rem).2.1 - 1)).map (fun i => 2 ^ (att + i)) ∧
      ((retryLoop outcome att rem).1 = none → (retryLoop outcome att rem).2.1 = rem) := by
  intro rem
  induction rem with
  | zero => intro att h; omega
  | succ r ih =>
    intro att _
    cases houtcome : outcome att with
    | some v => simp [retryLoop, houtcome]
    | none =>
      cases r with
      | zero => simp [retryLoop, houtcome]
      | succ r' =>
        have hstep : retryLoop outcome att (r' + 1 + 1) =
            ((retryLoop outcome (att + 1) (r' + 1)).1,
             (retryLoop outcome (att + 1) (r' + 1)).2.1 + 1,
             2 ^ att :: (retryLoop outcome (att + 1) (r' + 1)).2.2) := by
          simp only [retryLoop, houtcome]
        obtain ⟨h1, h2, h3, h4⟩ := ih (att + 1) (by omega)
        rw [hstep]
        refine ⟨by simp, by simpa using by omega, ?_, fun hn => by rw [h4 hn]⟩
        simp only [Nat.add_sub_cancel]
        obtain ⟨k, hk⟩ : ∃ k, (retryLoop outcome (att + 1) (r' + 1)).2.1 = k + 1 :=
          ⟨(retryLoop outcome (att + 1) (r' + 1)).2.1 - 1, by omega⟩
        rw [h3, hk, List.range_succ_eq_map]
        simp only [List.map_cons, List.map_map, pow_zero, Nat.add_zero, List.cons.injEq]
        refine ⟨trivial, List.map_congr_left fun i _ => ?_⟩
        simp [Function.comp, Nat.add_assoc, Nat.add_comm 1 i]

lemma retryLoop_allFail (outcome : Nat → Option Vec) (hfail : ∀ i, outcome i = none) :
    ∀ (rem att : Nat), (retryLoop outcome att rem).1 = none := by
  intro rem
  induction rem with
  | zero => intro att; rfl
  | succ r ih =>
    intro att
    simp only [retryLoop]
    rw [hfail att]
    cases r with
    | zero => rfl
    | succ r' => simpa using ih (att + 1)

/-- C5: the embedding call for a page is attempted at most `max_retries = 3`
times; the backoff sleeps performed between consecutive attempts are exactly
`2^attempt` seconds for attempt indices `0, 1, ...`; if the result is a
failure then all 3 attempts were used; and when every attempt fails the
per-page wrapper stores nothing and swallows the exception (it is a total
function returning `none`), so the page ends up with no stored embedding. -/
theorem c5_embed_retry (outcome : Nat → Option Vec) (page : WebPage) :
    (generate_embedding_with_retry outcome).2.1 ≤ 3 ∧
    (generate_embedding_with_retry outcome).2.2 =
      (List.range ((generate_embedding_with_retry outcome).2.1 - 1)).map (fun i => 2 ^ i) ∧
    ((generate_embedding_with_retry outcome).1 = none →
      (generate_embedding_with_retry outcome).2.1 = 3) ∧
    ((∀ i, outcome i = none) → generate_and_store_embedding outcome page = none) ∧
    (∀ v, (generate_embedding_with_retry outcome).1 = some v →
      generate_and_store_embedding outcome page = some (page.url, v)) := by
  obtain ⟨h1, h2, h3, h4⟩ := retryLoop_spec outcome 3 0 (by omega)
  refine ⟨h2, ?_, h4, ?_, ?_⟩
  · simpa [generate_embedding_with_retry] using h3
  · intro hfail
    unfold generate_and_store_embedding generate_embedding_with_retry
    rw [retryLoop_allFail outcome hfail 3 0]
  · intro v hv
    unfold generate_and_store_embedding
    rw [hv]

/-- Witness for C5 with a provider that fails on every attempt: exactly 3
attempts are made, the backoff sleeps are 1 and 2 seconds, and the page's
embedding is skipped without an error escaping the wrapper. -/
theorem c5_embed_retry_witness :
    (generate_embedding_with_retry (fun _ => none)).2.1 = 3 ∧
    (generate_embedding_with_retry (fun _ => none)).2.2 = [1, 2] ∧
    generate_and_store_embedding (fun _ => none) ⟨"http://a.com/p", "h"⟩ = none := by
  have h := c5_embed_retry (fun _ => none) ⟨"http://a.com/p", "h"⟩
  exact ⟨h.2.2.1 rfl, rfl, h.2.2.2.1 (fun _ => rfl)⟩

lemma scrape_url (fetch : String → FetchResult) (url : String) :
    (scrape fetch url).url = url := by
  unfold scrape
  cases fetch url with
  | success status body => by_cases h : status = 200 <;> simp [h]
  | clientError => rfl
  | timeout => rfl
  | otherError => rfl

lemma map_scrape_url (fetch : String → FetchResult) (urls : List String) :
    (urls.map (scrape fetch)).map WebPage.url = urls := by
  rw [List.map_map]
  exact List.map_congr_left (fun u _ => scrape_url fetch u) |>.trans (List.map_id urls)

/-- C6: `WebScraperStage.execute` returns two lists of pages of the same
length and order as the input URL lists (the i-th page carries the i-th
input URL), every URL whose fetch errors out, times out, or returns a
non-200 status yields a page with empty HTML, and scraping is a total
function of the fetch oracle — a per-URL failure never aborts the stage. -/
theorem c6_web_scraper (fetch : String → FetchResult) (old_urls new_urls : List String) :
    (webScraperExecute fetch (old_urls, new_urls)).1.length = old_urls.length ∧
    (webScraperExecute fetch (old_urls, new_urls)).2.length = new_urls.length ∧
    (webScraperExecute fetch (old_urls, new_urls)).1.map WebPage.url = old_urls ∧
    (webScraperExecute fetch (old_urls, new_urls)).2.map WebPage.url = new_urls ∧
    (∀ u, (∀ b, fetch u ≠ .success 200 b) → (scrape fetch u).html = "") := by
  refine ⟨by simp [webScraperExecute], by simp [webScraperExecute],
    map_scrape_url fetch old_urls, map_scrape_url fetch new_urls, ?_⟩
  intro u hu
  unfold scrape
  cases hf : fetch u with
  | success status body =>
    have : status ≠ 200 := fun h200 => hu body (by rw [hf, h200])
    simp [this]
  | clientError => rfl
  | timeout => rfl
  | otherError => rfl

/-- Witness for C6 with a concrete fetch oracle in which one URL succeeds,
one returns 404, one times out and one raises a connection error. -/
theorem c6_web_scraper_witness :
    (webScraperExecute
        (fun u => if u = "http://a.com/ok" then .success 200 "<html>body</html>"
                  else if u = "http://a.com/404" then .success 404 "not found"
                  else if u = "http://a.com/slow" then .timeout
                  else .clientError)
        (["http://a.com/ok", "http://a.com/404"],
         ["http://a.com/slow", "http://a.com/err"])).1.map WebPage.url =
      ["http://a.com/ok", "http://a.com/404"] ∧
    (scrape
        (fun u => if u = "http://a.com/ok" then .success 200 "<html>body</html>"
                  else if u = "http://a.com/404" then .success 404 "not found"
                  else if u = "http://a.com/slow" then .timeout
                  else .clientError)
        "http://a.com/404").html = "" := by
  have h := c6_web_scraper
    (fun u => if u = "http://a.com/ok" then .success 200 "<html>body</html>"
              else if u = "http://a.com/404" then .success 404 "not found"
              else if u = "http://a.com/slow" then .timeout
              else .clientError)
    ["http://a.com/ok", "http://a.com/404"] ["http://a.com/slow", "http://a.com/err"]
  refine ⟨h.2.2.1, h.2.2.2.2 "http://a.com/404" ?_⟩
  intro b
  simp

-- =========================
-- Pairing loop lemmas
-- =========================

lemma insertPage_mem_of_mem {s : List WebPage} {q : WebPage} (p : WebPage)
    (h : q ∈ s) : q ∈ insertPage s p := by
  unfold insertPage
  split
  · exact h
  · exact List.mem_append_left _ h

lemma insertPage_mem {s : List WebPage} {q : WebPage} {p : WebPage}
    (h : q ∈ insertPage s p) : q ∈ s ∨ q = p := by
  unfold insertPage at h
  split at h
  · exact Or.inl h
  · rcases List.mem_append.mp h with h' | h'
    · exact Or.inl h'
    · exact Or.inr (List.mem_singleton.mp h')

lemma insertPage_self_mem {s : List WebPage} {p : WebPage}
    (h : ∀ q ∈ s, q.html = p.html → q = p) : p ∈ insertPage s p := by
  unfold insertPage
  split
  · next hany =>
    obtain ⟨q, hq, hqeq⟩ := List.any_eq_true.mp hany
    have : q = p := h q hq (by simpa [webpageEq] using hqeq)
    exact this ▸ hq
  · exact List.mem_append_right _ (List.mem_singleton.mpr rfl)

lemma insertMapping_cases (s : List Mapping) (m : Mapping) :
    insertMapping s m = s ∨ insertMapping s m = s ++ [m] := by
  unfold insertMapping
  split
  · exact Or.inl rfl
  · exact Or.inr rfl

lemma insertMapping_mem {s : List Mapping} {m x : Mapping}
    (h : x ∈ insertMapping s m) : x ∈ s ∨ x = m := by
  rcases insertMapping_cases s m with hc | hc <;> rw [hc] at h
  · exact Or.inl h
  · rcases List.mem_append.mp h with h' | h'
    · exact Or.inl h'
    · exact Or.inr (List.mem_singleton.mp h')

lemma insertMapping_key_mem (s : List Mapping) (m : Mapping) :
    ∃ m' ∈ insertMapping s m,
      m'.old_page.html = m.old_page.html ∧ m'.new_page.html = m.new_page.html := by
  unfold insertMapping
  split
  · next hany =>
    obtain ⟨m2, hm2, hkey⟩ := List.any_eq_true.mp hany
    exact ⟨m2, hm2, by simpa [mappingEq, webpageEq] using hkey⟩
  · exact ⟨m, List.mem_append_right _ (List.mem_singleton.mpr rfl), rfl, rfl⟩

lemma maxBySimilarity_mem (x : SimRec) (xs : List SimRec) :
    maxBySimilarity x xs ∈ x :: xs := by
  induction xs generalizing x with
  | nil => simp [maxBySimilarity]
  | cons p ps ih =>
    have hstep : maxBySimilarity x (p :: ps) =
        maxBySimilarity (if x.similarity < p.similarity then p else x) ps := rfl
    rw [hstep]
    rcases List.mem_cons.mp (ih (if x.similarity < p.similarity then p else x)) with h | h
    · rw [h]
      split <;> simp
    · simp [h]

lemma find_best_match_mem {l : List SimRec} {b : SimRec}
    (h : find_best_match l = some b) :
    b ∈ l ∧ MEDIUM_CONFIDENCE_THRESHOLD ≤ b.similarity := by
  unfold find_best_match at h
  rcases hflt : l.filter (fun p => decide (MEDIUM_CONFIDENCE_THRESHOLD ≤ p.similarity)) with
    _ | ⟨x, xs⟩ <;> rw [hflt] at h
  · exact absurd h (by simp)
  · have hb : b = maxBySimilarity x xs := by simpa using h.symm
    have hmem : b ∈ x :: xs := hb ▸ maxBySimilarity_mem x xs
    have : b ∈ l.filter (fun p => decide (MEDIUM_CONFIDENCE_THRESHOLD ≤ p.similarity)) := by
      rw [hflt]; exact hmem
    have := List.mem_filter.mp this
    exact ⟨this.1, by simpa using this.2⟩

/-- Case analysis on one iteration of the `PairingStage` loop: either the
state is unchanged (no embedding, no candidates, no best match, or no
resolvable new page), or a mapping from the processed old page to a new page
in the unmatched pool is recorded, whose target URL does not collide with
any already-consumed new page. -/
lemma processOldPage_cases (env : PairingEnv) (un : List WebPage)
    (st : PairingState) (q : WebPage) :
    processOldPage env un st q = st ∨
    ∃ (np : WebPage) (best : SimRec) (similar : List SimRec),
      np ∈ un ∧ np.url = best.url ∧
      (∀ mp ∈ st.matched_new, mp.url ≠ best.url) ∧
      processOldPage env un st q =
        { matched_old := insertPage st.matched_old q
          matched_new := insertPage st.matched_new np
          all_mappings :=
            insertMapping st.all_mappings (create_mapping q np best.similarity similar) } := by
  unfold processOldPage
  dsimp only
  split
  · exact Or.inl rfl
  · split
    · exact Or.inl rfl
    · rcases hfb : find_best_match
        ((env.find_similar q.url).filter
          (fun p => ¬ st.matched_new.any (fun matched => matched.url == p.url))) with
        _ | best
      · simp [hfb]
      · rcases hfind : un.find? (fun p => p.url == best.url) with _ | np
        · simp [hfb, hfind]
        · refine Or.inr ⟨np, best,
            (env.find_similar q.url).filter
              (fun p => ¬ st.matched_new.any (fun matched => matched.url == p.url)),
            List.mem_of_find?_eq_some hfind, ?_, ?_, ?_⟩
          · simpa using List.find?_some hfind
          · intro mp hmp hurl
            have hbestmem := (find_best_match_mem hfb).1
            have hpred := (List.mem_filter.mp hbestmem).2
            have : ∀ m ∈ st.matched_new, ¬(m.url == best.url) := by
              simpa using hpred
            exact this mp hmp (by simp [hurl])
          · simp [hfind]

lemma pool_html_inj {pool : List WebPage}
    (hdist : pool.Pairwise (fun a b => a.html ≠ b.html))
    {a b : WebPage} (ha : a ∈ pool) (hb : b ∈ pool) (h : a.html = b.html) : a = b := by
  by_contra hne
  have hsym : Symmetric (fun a b : WebPage => a.html ≠ b.html) := by
    intro x y hxy hyx
    exact hxy hyx.symm
  exact List.Pairwise.forall hsym hdist ha hb hne h

lemma insertPage_exists_rep (s : List WebPage) (p : WebPage) :
    ∃ q ∈ insertPage s p, q.html = p.html := by
  unfold insertPage
  split
  · next hany =>
    obtain ⟨q, hq, hqeq⟩ := List.any_eq_true.mp hany
    exact ⟨q, hq, by simpa [webpageEq] using hqeq⟩
  · exact ⟨p, List.mem_append_right _ (List.mem_singleton.mpr rfl), rfl⟩

lemma foldl_insertPageBy_mono {α : Type} (g : α → WebPage) (l : List α) :
    ∀ (acc : List WebPage) (q : WebPage), q ∈ acc →
      q ∈ l.foldl (fun s m => insertPage s (g m)) acc := by
  induction l with
  | nil => intro acc q hq; exact hq
  | cons m ms ih =>
    intro acc q hq
    exact ih (insertPage acc (g m)) q (insertPage_mem_of_mem (g m) hq)

lemma foldl_insertPageBy_subset {α : Type} (g : α → WebPage) (l : List α) :
    ∀ (acc : List WebPage) (q : WebPage),
      q ∈ l.foldl (fun s m => insertPage s (g m)) acc →
      q ∈ acc ∨ ∃ m ∈ l, q = g m := by
  induction l with
  | nil => intro acc q hq; exact Or.inl hq
  | cons m ms ih =>
    intro acc q hq
    rcases ih (insertPage acc (g m)) q hq with h | ⟨m', hm', hq'⟩
    · rcases insertPage_mem h with h' | h'
      · exact Or.inl h'
      · exact Or.inr ⟨m, List.mem_cons_self m ms, h'⟩
    · exact Or.inr ⟨m', List.mem_cons_of_mem m hm', hq'⟩

lemma foldl_insertPageBy_exists {α : Type} (g : α → WebPage) (l : List α) :
    ∀ (acc : List WebPage), ∀ m ∈ l,
      ∃ q ∈ l.foldl (fun s m => insertPage s (g m)) acc, q.html = (g m).html := by
  induction l with
  | nil => intro acc m hm; exact absurd hm (List.not_mem_nil m)
  | cons x xs ih =>
    intro acc m hm
    rcases List.mem_cons.mp hm with rfl | hm'
    · obtain ⟨q, hq, hqh⟩ := insertPage_exists_rep acc (g m)
      exact ⟨q, foldl_insertPageBy_mono g xs _ q hq, hqh⟩
    · exact ih (insertPage acc (g x)) m hm'

lemma foldl_insertMapping_sublist (l : List Mapping) :
    ∀ acc : List Mapping, ∃ l', l.foldl insertMapping acc = acc ++ l' ∧ l'.Sublist l := by
  induction l with
  | nil => intro acc; exact ⟨[], by simp, List.Sublist.refl []⟩
  | cons m ms ih =>
    intro acc
    rw [List.foldl_cons]
    rcases insertMapping_cases acc m with hc | hc <;> rw [hc]
    · obtain ⟨l', h1, h2⟩ := ih acc
      exact ⟨l', h1, h2.cons m⟩
    · obtain ⟨l', h1, h2⟩ := ih (acc ++ [m])
      exact ⟨m :: l', by simpa using h1, h2.cons₂ m⟩

lemma pool_url_ne {pool : List WebPage}
    (hdist : pool.Pairwise (fun a b => a.url ≠ b.url))
    {a b : WebPage} (ha : a ∈ pool) (hb : b ∈ pool) (hne : a ≠ b) : a.url ≠ b.url := by
  have hsym : Symmetric (fun a b : WebPage => a.url ≠ b.url) := by
    intro x y hxy hyx
    exact hxy hyx.symm
  exact List.Pairwise.forall hsym hdist ha hb hne

lemma create_mapping_old_page (a b : WebPage) (s : ℚ) (sp : List SimRec) :
    (create_mapping a b s sp).old_page = a := by
  unfold create_mapping
  split_ifs <;> rfl

lemma create_mapping_new_page (a b : WebPage) (s : ℚ) (sp : List SimRec) :
    (create_mapping a b s sp).new_page = b := by
  unfold create_mapping
  split_ifs <;> rfl

/-- Invariant of the semantic pairing loop: provided the new-page pool has
pairwise-distinct HTML, every recorded mapping's new page is registered in
`matched_new` (so its URL is excluded from later candidate lists), and the
recorded mappings keep pairwise-distinct new-page URLs and pairwise-distinct
old-page URLs. -/
lemma pairing_loop_invariant (env : PairingEnv) (new_pool un : List WebPage)
    (hun : ∀ p ∈ un, p ∈ new_pool)
    (hdist : new_pool.Pairwise (fun a b => a.html ≠ b.html)) :
    ∀ (l : List WebPage) (st : PairingState),
      l.Pairwise (fun a b => a.url ≠ b.url) →
      (∀ m ∈ st.all_mappings, m.new_page ∈ st.matched_new) →
      (∀ p ∈ st.matched_new, p ∈ new_pool) →
      st.all_mappings.Pairwise (fun m1 m2 => m1.new_page.url ≠ m2.new_page.url) →
      (∀ m ∈ st.all_mappings, ∀ p ∈ l, m.old_page.url ≠ p.url) →
      st.all_mappings.Pairwise (fun m1 m2 => m1.old_page.url ≠ m2.old_page.url) →
      ((l.foldl (processOldPage env un) st).all_mappings.Pairwise
          (fun m1 m2 => m1.new_page.url ≠ m2.new_page.url)) ∧
      ((l.foldl (processOldPage env un) st).all_mappings.Pairwise
          (fun m1 m2 => m1.old_page.url ≠ m2.old_page.url)) := by
  intro l
  induction l with
  | nil =>
    intro st _ _ _ h4 _ h6
    exact ⟨h4, h6⟩
  | cons p rest ih =>
    intro st hpw h2 h3 h4 h5 h6
    obtain ⟨hp_rest, hrest⟩ := List.pairwise_cons.mp hpw
    rw [List.foldl_cons]
    rcases processOldPage_cases env un st p with
      hcase | ⟨np, best, similar, hnp, hnpurl, hfilter, hcase⟩
    · rw [hcase]
      exact ih st hrest h2 h3 h4
        (fun m hm p' hp' => h5 m hm p' (List.mem_cons_of_mem p hp')) h6
    · rw [hcase]
      set mnew := create_mapping p np best.similarity similar with hmnew
      have hmnew_old : mnew.old_page = p := create_mapping_old_page _ _ _ _
      have hmnew_new : mnew.new_page = np := create_mapping_new_page _ _ _ _
      apply ih _ hrest
      · -- every mapping's new page is in the updated matched set
        intro m hm
        rcases insertMapping_mem hm with hm' | hm'
        · exact insertPage_mem_of_mem np (h2 m hm')
        · subst hm'
          rw [hmnew_new]
          exact insertPage_self_mem (fun q hq hqh =>
            pool_html_inj hdist (h3 q hq) (hun np hnp) hqh)
      · -- the updated matched set stays inside the pool
        intro q hq
        rcases insertPage_mem hq with hq' | hq'
        · exact h3 q hq'
        · exact hq' ▸ hun np hnp
      · -- pairwise-distinct new-page URLs
        rcases insertMapping_cases st.all_mappings mnew with hc | hc <;> rw [hc]
        · exact h4
        · rw [List.pairwise_append]
          refine ⟨h4, List.pairwise_singleton _ _, ?_⟩
          intro a ha b hb
          rw [List.mem_singleton.mp hb, hmnew_new]
          intro heq
          exact hfilter a.new_page (h2 a ha) (heq ▸ hnpurl)
      · -- no recorded old URL reappears later in the worklist
        intro m hm p' hp'
        rcases insertMapping_mem hm with hm' | hm'
        · exact h5 m hm' p' (List.mem_cons_of_mem p hp')
        · subst hm'
          rw [hmnew_old]
          exact hp_rest p' hp'
      · -- pairwise-distinct old-page URLs
        rcases insertMapping_cases st.all_mappings mnew with hc | hc <;> rw [hc]
        · exact h6
        · rw [List.pairwise_append]
          refine ⟨h6, List.pairwise_singleton _ _, ?_⟩
          intro a ha b hb
          rw [List.mem_singleton.mp hb, hmnew_old]
          exact h5 a ha p (List.mem_cons_self p rest)

/-- Old pages used in the concrete pairing scenarios. -/
def oldPageA : WebPage := ⟨"http://old/a", "html-a"⟩

/-- Second old page of the concrete pairing scenarios. -/
def oldPageB : WebPage := ⟨"http://old/b", "html-b"⟩

/-- Third old page of the concrete pairing scenarios. -/
def oldPageC : WebPage := ⟨"http://old/c", "html-c"⟩

/-- A new page whose HTML coincides with `newDupPage2`. -/
def newDupPage1 : WebPage := ⟨"http://new/1", "dup-html"⟩

/-- A second new page with the same HTML as `newDupPage1` but a different
URL. -/
def newDupPage2 : WebPage := ⟨"http://new/2", "dup-html"⟩

/-- Similarity oracle for the double-consumption scenario: old page `a` is
similar only to new page 1, old pages `b` and `c` only to new page 2. -/
def envDup : PairingEnv :=
  { old_embedding_urls := ["http://old/a", "http://old/b", "http://old/c"]
    find_similar := fun u =>
      if u == "http://old/a" then [⟨"http://new/1", 95/100⟩]
      else if u == "http://old/b" then [⟨"http://new/2", 9/10⟩]
      else [⟨"http://new/2", 8/10⟩] }

/-- C2 counterexample: when two new pages share byte-identical HTML
(`newDupPage1`/`newDupPage2`), `PairingStage` can map two different old
pages onto the *same* new page: the consumed-page set is keyed by HTML, so
registering `newDupPage2` after its HTML twin is a no-op, and the URL-based
candidate filter never learns that `http://new/2` was consumed. The run
below produces mappings `a→new/1`, `b→new/2`, `c→new/2`: the new page
`http://new/2` appears in two mappings. -/
theorem c2_counterexample :
    ((pairingExecute envDup [oldPageA, oldPageB, oldPageC] [newDupPage1, newDupPage2]
        []).all_mappings.map (fun m => (m.old_page.url, m.new_page.url))) =
      [("http://old/a", "http://new/1"), ("http://old/b", "http://new/2"),
       ("http://old/c", "http://new/2")] ∧
    ¬ ((pairingExecute envDup [oldPageA, oldPageB, oldPageC] [newDupPage1, newDupPage2]
        []).all_mappings.Pairwise (fun m1 m2 => m1.new_page.url ≠ m2.new_page.url)) := by
  exact ⟨by with_unfolding_all decide, by with_unfolding_all decide⟩

/-- C2 amended: every old page appears in at most one mapping (the recorded
mappings carry pairwise-distinct old-page URLs), and — provided the new
pages have pairwise-distinct HTML and URLs and the pre-existing exact-HTML
mappings are drawn from the input pages with distinct HTML per mapping — a
new page consumed by one mapping is never selected as the target of a
second mapping (the recorded mappings carry pairwise-distinct new-page
URLs). Without the distinct-HTML proviso the property fails, as
byte-identical new pages are conflated by the HTML-keyed consumed set. -/
theorem c2_amended_single_consumption (env : PairingEnv)
    (old_pages new_pages : List WebPage) (existing : List Mapping)
    (hold : old_pages.Pairwise (fun a b => a.url ≠ b.url))
    (hnewh : new_pages.Pairwise (fun a b => a.html ≠ b.html))
    (hnewu : new_pages.Pairwise (fun a b => a.url ≠ b.url))
    (hexmem : ∀ m ∈ existing, m.old_page ∈ old_pages ∧ m.new_page ∈ new_pages)
    (hexnew : existing.Pairwise (fun m1 m2 => m1.new_page.html ≠ m2.new_page.html))
    (hexold : existing.Pairwise (fun m1 m2 => m1.old_page.html ≠ m2.old_page.html)) :
    ((pairingExecute env old_pages new_pages existing).all_mappings.Pairwise
        (fun m1 m2 => m1.new_page.url ≠ m2.new_page.url)) ∧
    ((pairingExecute env old_pages new_pages existing).all_mappings.Pairwise
        (fun m1 m2 => m1.old_page.url ≠ m2.old_page.url)) := by
  obtain ⟨l', hfold, hsub⟩ := foldl_insertMapping_sublist existing []
  have hall_eq : (pairingInitState existing).all_mappings = l' := by
    simpa [pairingInitState] using hfold
  have hall_mem : ∀ m ∈ (pairingInitState existing).all_mappings, m ∈ existing := by
    intro m hm
    exact hsub.subset (hall_eq ▸ hm)
  have hall_sub : (pairingInitState existing).all_mappings.Sublist existing := by
    rw [hall_eq]; exact hsub
  have hmn_sub : ∀ q ∈ (pairingInitState existing).matched_new, q ∈ new_pages := by
    intro q hq
    have hq2 : q ∈ existing.foldl (fun s m => insertPage s ((fun m => m.new_page) m)) [] := hq
    rcases foldl_insertPageBy_subset (fun m => m.new_page) existing [] q hq2 with
      h0 | ⟨m', hm', hq'⟩
    · exact absurd h0 (List.not_mem_nil q)
    · exact hq' ▸ (hexmem m' hm').2
  have hI2 : ∀ m ∈ (pairingInitState existing).all_mappings,
      m.new_page ∈ (pairingInitState existing).matched_new := by
    intro m hm
    have hm_ex := hall_mem m hm
    obtain ⟨q, hq, hqh⟩ := foldl_insertPageBy_exists (fun m => m.new_page) existing [] m hm_ex
    have hq2 : q ∈ (pairingInitState existing).matched_new := hq
    have : q = m.new_page :=
      pool_html_inj hnewh (hmn_sub q hq2) (hexmem m hm_ex).2 hqh
    exact this ▸ hq2
  have hex_new_url : existing.Pairwise (fun m1 m2 => m1.new_page.url ≠ m2.new_page.url) := by
    refine hexnew.imp_of_mem ?_
    intro m1 m2 h1 h2 hR
    exact pool_url_ne hnewu (hexmem m1 h1).2 (hexmem m2 h2).2
      (fun he => hR (congrArg WebPage.html he))
  have hex_old_url : existing.Pairwise (fun m1 m2 => m1.old_page.url ≠ m2.old_page.url) := by
    refine hexold.imp_of_mem ?_
    intro m1 m2 h1 h2 hR
    exact pool_url_ne hold (hexmem m1 h1).1 (hexmem m2 h2).1
      (fun he => hR (congrArg WebPage.html he))
  have hI5 : ∀ m ∈ (pairingInitState existing).all_mappings,
      ∀ p ∈ pairingUnmatchedOld old_pages existing, m.old_page.url ≠ p.url := by
    intro m hm p hp
    have hm_ex := hall_mem m hm
    have hp_old : p ∈ old_pages := List.mem_of_mem_filter hp
    have hp_not : ¬ (memPage (pairingInitState existing).matched_old p = true) := by
      simpa using (List.mem_filter.mp hp).2
    have hhtml : m.old_page.html ≠ p.html := by
      intro he
      obtain ⟨q, hq, hqh⟩ :=
        foldl_insertPageBy_exists (fun m => m.old_page) existing [] m hm_ex
      refine hp_not (List.any_eq_true.mpr ⟨q, hq, ?_⟩)
      simp [webpageEq, hqh, he]
    exact pool_url_ne hold (hexmem m hm_ex).1 hp_old
      (fun he => hhtml (congrArg WebPage.html he))
  exact pairing_loop_invariant env new_pages (pairingUnmatchedNew new_pages existing)
    (fun p hp => List.mem_of_mem_filter hp) hnewh
    (pairingUnmatchedOld old_pages existing) (pairingInitState existing)
    (List.Pairwise.sublist (List.filter_sublist _) hold)
    hI2 hmn_sub
    (List.Pairwise.sublist hall_sub hex_new_url)
    hI5
    (List.Pairwise.sublist hall_sub hex_old_url)

/-- A new page with HTML distinct from every other page in the concrete
scenarios. -/
def newPageG1 : WebPage := ⟨"http://new/1", "html-g1"⟩

/-- A second new page with distinct HTML and URL. -/
def newPageG2 : WebPage := ⟨"http://new/2", "html-g2"⟩

/-- Similarity oracle for the order-dependence scenario: old page `a` is
similar only to new page 1; old page `b` is similar to new pages 1 and 2. -/
def envPerm : PairingEnv :=
  { old_embedding_urls := ["http://old/a", "http://old/b"]
    find_similar := fun u =>
      if u == "http://old/a" then [⟨"http://new/1", 8/10⟩]
      else [⟨"http://new/1", 8/10⟩, ⟨"http://new/2", 75/100⟩] }

/-- Witness for C2's amended statement at a concrete run with two old pages
competing for new page 1: the produced mappings consume each new page and
each old page at most once. -/
theorem c2_amended_single_consumption_witness :
    ((pairingExecute envPerm [oldPageA, oldPageB] [newPageG1, newPageG2] []).all_mappings.Pairwise
        (fun m1 m2 => m1.new_page.url ≠ m2.new_page.url)) ∧
    ((pairingExecute envPerm [oldPageA, oldPageB] [newPageG1, newPageG2] []).all_mappings.Pairwise
        (fun m1 m2 => m1.old_page.url ≠ m2.old_page.url)) :=
  c2_amended_single_consumption envPerm [oldPageA, oldPageB] [newPageG1, newPageG2] []
    (by decide) (by decide) (by decide) (by decide) (by decide) (by decide)

/-- The observable content of a mapping, as listed by the claim. -/
def mappingKey (m : Mapping) : String × String × ℚ × String × Bool :=
  (m.old_page.url, m.new_page.url, m.confidence_score, m.match_type, m.needs_review)

/-- C7 counterexample: with the same page sets and the same similarity
oracle, permuting the old page list changes the set of mappings produced by
`PairingStage`: in order `[a, b]` old page `a` claims new page 1 first and
`b` falls back to new page 2 (two mappings); in order `[b, a]` old page `b`
claims new page 1 and `a`, whose only candidate is then consumed, is
orphaned (one mapping). The two runs' mapping sets are not permutations of
each other. -/
theorem c7_counterexample :
    [oldPageB, oldPageA].Perm [oldPageA, oldPageB] ∧
    (pairingExecute envPerm [oldPageA, oldPageB] [newPageG1, newPageG2]
        []).all_mappings.length = 2 ∧
    (pairingExecute envPerm [oldPageB, oldPageA] [newPageG1, newPageG2]
        []).all_mappings.length = 1 ∧
    ¬ (((pairingExecute envPerm [oldPageA, oldPageB] [newPageG1, newPageG2]
          []).all_mappings.map mappingKey).Perm
        ((pairingExecute envPerm [oldPageB, oldPageA] [newPageG1, newPageG2]
          []).all_mappings.map mappingKey)) := by
  refine ⟨by decide, by with_unfolding_all decide, by with_unfolding_all decide,
    by with_unfolding_all decide⟩

/-- C7 amended: matches are accumulated into unordered sets, and the
exact-path matcher's matched-pair collection is permutation-invariant in the
old URL list (each old URL is matched independently against the new-path
map); but the pipeline's mapping set as a whole is not permutation
invariant — `PairingStage` assigns greedily in old-list order, so permuting
the old pages can change which mappings exist. -/
theorem c7_amended_exact_pairs_perm (old₁ old₂ new_urls : List String)
    (h : old₁.Perm old₂) :
    ((exactUrlMatchExecute old₁ new_urls).1).Perm
      ((exactUrlMatchExecute old₂ new_urls).1) :=
  h.filterMap _

/-- Witness for C7's amended statement on a concrete permutation of two old
URLs. -/
theorem c7_amended_exact_pairs_perm_witness :
    ((exactUrlMatchExecute ["http://a.com/x", "http://a.com/y"] ["http://b.com/x"]).1).Perm
      ((exactUrlMatchExecute ["http://a.com/y", "http://a.com/x"] ["http://b.com/x"]).1) :=
  c7_amended_exact_pairs_perm ["http://a.com/x", "http://a.com/y"]
    ["http://a.com/y", "http://a.com/x"] ["http://b.com/x"] (by decide)

lemma pairing_loop_old_page_ne (env : PairingEnv) (un : List WebPage) (p : WebPage) :
    ∀ (l : List WebPage) (st : PairingState),
      (∀ m ∈ st.all_mappings, m.old_page ≠ p) →
      (∀ q ∈ l, q ≠ p) →
      ∀ m ∈ (l.foldl (processOldPage env un) st).all_mappings, m.old_page ≠ p := by
  intro l
  induction l with
  | nil => intro st h _; exact h
  | cons q rest ih =>
    intro st h hl
    rw [List.foldl_cons]
    rcases processOldPage_cases env un st q with
      hcase | ⟨np, best, similar, _, _, _, hcase⟩
    · rw [hcase]
      exact ih st h (fun r hr => hl r (List.mem_cons_of_mem _ hr))
    · rw [hcase]
      apply ih _ ?_ (fun r hr => hl r (List.mem_cons_of_mem _ hr))
      intro m hm
      rcases insertMapping_mem hm with hm' | hm'
      · exact h m hm'
      · subst hm'
        rw [create_mapping_old_page]
        exact hl q (List.mem_cons_self q rest)

lemma memPage_matched_old_of_dup {existing : List Mapping} {p : WebPage}
    (hdup : ∃ m ∈ existing, m.old_page.html = p.html) :
    memPage (pairingInitState existing).matched_old p = true := by
  obtain ⟨m, hm, hh⟩ := hdup
  obtain ⟨q, hq, hqh⟩ := foldl_insertPageBy_exists (fun m => m.old_page) existing [] m hm
  exact List.any_eq_true.mpr ⟨q, hq, by simp [webpageEq, hqh, hh]⟩

/-- C10: `WebPage` equality (and hashing) is determined solely by the HTML
string, ignoring the URL; consequently, in `PairingStage` an unmatched old
page whose HTML is byte-identical to the old page of an existing mapping is
itself treated as matched: it is excluded from the semantic worklist
(`unmatched_old_pages`) and no mapping produced by the stage has it as its
old page. -/
theorem c10_duplicate_html_old_page (env : PairingEnv)
    (old_pages new_pages : List WebPage) (existing : List Mapping) (p : WebPage)
    (hdup : ∃ m ∈ existing, m.old_page.html = p.html)
    (hnotself : ∀ m ∈ existing, m.old_page ≠ p) :
    (∀ a b : WebPage, webpageEq a b = true ↔ a.html = b.html) ∧
    p ∉ pairingUnmatchedOld old_pages existing ∧
    (∀ m ∈ (pairingExecute env old_pages new_pages existing).all_mappings,
      m.old_page ≠ p) := by
  have hmem : memPage (pairingInitState existing).matched_old p = true :=
    memPage_matched_old_of_dup hdup
  refine ⟨fun a b => by simp [webpageEq], ?_, ?_⟩
  · intro hp
    have := (List.mem_filter.mp hp).2
    simp [hmem] at this
  · have hinit : ∀ m ∈ (pairingInitState existing).all_mappings, m.old_page ≠ p := by
      intro m hm
      obtain ⟨l', hfold, hsub⟩ := foldl_insertMapping_sublist existing []
      have hall_eq : (pairingInitState existing).all_mappings = l' := by
        simpa [pairingInitState] using hfold
      exact hnotself m (hsub.subset (hall_eq ▸ hm))
    have hwork : ∀ q ∈ pairingUnmatchedOld old_pages existing, q ≠ p := by
      intro q hq hqp
      subst hqp
      have := (List.mem_filter.mp hq).2
      simp [hmem] at this
    exact pairing_loop_old_page_ne env (pairingUnmatchedNew new_pages existing) p
      (pairingUnmatchedOld old_pages existing) (pairingInitState existing) hinit hwork

/-- The old page matched by `HtmlPruneStage` in the C10 witness scenario. -/
def oldMatchedPage : WebPage := ⟨"http://old/m", "same-html"⟩

/-- An old page with the same HTML as `oldMatchedPage` but a different URL. -/
def oldDupPage : WebPage := ⟨"http://old/d", "same-html"⟩

/-- An environment with no stored embeddings. -/
def envEmpty : PairingEnv :=
  { old_embedding_urls := [], find_similar := fun _ => [] }

/-- Witness for C10: with an existing exact-HTML mapping for
`oldMatchedPage`, the HTML-identical `oldDupPage` is excluded from the
semantic worklist and receives no mapping of its own. -/
theorem c10_duplicate_html_old_page_witness :
    webpageEq oldMatchedPage oldDupPage = true ∧
    oldDupPage ∉ pairingUnmatchedOld [oldMatchedPage, oldDupPage]
      [⟨oldMatchedPage, newPageG1, 1, "exact_html", false⟩] ∧
    (∀ m ∈ (pairingExecute envEmpty [oldMatchedPage, oldDupPage] [newPageG1]
        [⟨oldMatchedPage, newPageG1, 1, "exact_html", false⟩]).all_mappings,
      m.old_page ≠ oldDupPage) := by
  have h := c10_duplicate_html_old_page envEmpty [oldMatchedPage, oldDupPage] [newPageG1]
    [⟨oldMatchedPage, newPageG1, 1, "exact_html", false⟩] oldDupPage
    ⟨⟨oldMatchedPage, newPageG1, 1, "exact_html", false⟩, by decide, by decide⟩
    (by decide)
  exact ⟨(h.1 oldMatchedPage oldDupPage).mpr (by decide), h.2.1, h.2.2⟩

lemma newPageMapLookup_some {vn : List WebPage} {h : String} {np : WebPage}
    (hl : newPageMapLookup vn h = some np) : np ∈ vn ∧ np.html = h := by
  unfold newPageMapLookup at hl
  refine ⟨List.mem_reverse.mp (List.mem_of_find?_eq_some hl), ?_⟩
  simpa using List.find?_some hl

lemma htmlPruneStep_cases (vn : List WebPage) (acc : List Mapping × List String)
    (page : WebPage) :
    htmlPruneStep vn acc page = acc ∨
    ∃ np, newPageMapLookup vn page.html = some np ∧
      acc.2.contains page.html = false ∧
      htmlPruneStep vn acc page =
        (insertMapping acc.1 ⟨page, np, 1, "exact_html", false⟩, page.html :: acc.2) := by
  unfold htmlPruneStep
  rcases hl : newPageMapLookup vn page.html with _ | np
  · exact Or.inl rfl
  · rcases hc : acc.2.contains page.html with _ | _
    · exact Or.inr ⟨np, rfl, rfl, by simp⟩
    · exact Or.inl (by simp)

lemma htmlPrune_fold_mono (vn : List WebPage) :
    ∀ (l : List WebPage) (acc : List Mapping × List String) (m : Mapping),
      m ∈ acc.1 → m ∈ (l.foldl (htmlPruneStep vn) acc).1 := by
  intro l
  induction l with
  | nil => intro acc m hm; exact hm
  | cons x xs ih =>
    intro acc m hm
    rw [List.foldl_cons]
    rcases htmlPruneStep_cases vn acc x with hc | ⟨np, _, _, hc⟩ <;> rw [hc]
    · exact ih acc m hm
    · rcases insertMapping_cases acc.1 ⟨x, np, 1, "exact_html", false⟩ with hc2 | hc2
      · exact ih _ m (by rw [hc2]; exact hm)
      · exact ih _ m (by rw [hc2]; exact List.mem_append_left _ hm)

lemma htmlPrune_fold_complete (vn : List WebPage) :
    ∀ (l : List WebPage) (acc : List Mapping × List String),
      (∀ h ∈ acc.2, ∃ m ∈ acc.1, m.old_page.html = h) →
      ∀ po ∈ l, (newPageMapLookup vn po.html).isSome = true →
      ∃ m ∈ (l.foldl (htmlPruneStep vn) acc).1, m.old_page.html = po.html := by
  intro l
  induction l with
  | nil => intro acc _ po hpo; exact absurd hpo (List.not_mem_nil po)
  | cons x xs ih =>
    intro acc hinv po hpo hlook
    have hinv' : ∀ h ∈ (htmlPruneStep vn acc x).2,
        ∃ m ∈ (htmlPruneStep vn acc x).1, m.old_page.html = h := by
      rcases htmlPruneStep_cases vn acc x with hc | ⟨np, hl, hcont, hc⟩ <;> rw [hc]
      · exact hinv
      · intro h hh
        rcases List.mem_cons.mp hh with rfl | hh'
        · obtain ⟨m', hm', hm'o, _⟩ :=
            insertMapping_key_mem acc.1 ⟨x, np, 1, "exact_html", false⟩
          exact ⟨m', hm', hm'o⟩
        · obtain ⟨m, hm, hmh⟩ := hinv h hh'
          rcases insertMapping_cases acc.1 ⟨x, np, 1, "exact_html", false⟩ with hc2 | hc2 <;>
            rw [hc2]
          · exact ⟨m, hm, hmh⟩
          · exact ⟨m, List.mem_append_left _ hm, hmh⟩
    rcases List.mem_cons.mp hpo with rfl | hpo'
    · -- the processed page is `po` itself
      rw [List.foldl_cons]
      rcases hl : newPageMapLookup vn po.html with _ | np
      · rw [hl] at hlook
        exact absurd hlook (by simp)
      · rcases hcont : acc.2.contains po.html with _ | _
        · -- hash not yet consumed: a mapping for `po` is inserted now
          have hc : htmlPruneStep vn acc po =
              (insertMapping acc.1 ⟨po, np, 1, "exact_html", false⟩, po.html :: acc.2) := by
            unfold htmlPruneStep
            rw [hl, hcont]
            rfl
          rw [hc]
          obtain ⟨m', hm', hm'o, _⟩ :=
            insertMapping_key_mem acc.1 ⟨po, np, 1, "exact_html", false⟩
          exact ⟨m', htmlPrune_fold_mono vn xs _ m' hm', hm'o⟩
        · -- hash already consumed: the invariant supplies an earlier mapping
          have hc : htmlPruneStep vn acc po = acc := by
            unfold htmlPruneStep
            rw [hl, hcont]
            rfl
          rw [hc]
          obtain ⟨m, hm, hmh⟩ := hinv po.html (by simpa using hcont)
          exact ⟨m, htmlPrune_fold_mono vn xs acc m hm, hmh⟩
    · rw [List.foldl_cons]
      exact ih (htmlPruneStep vn acc x) hinv' po hpo' hlook

lemma htmlPrune_fold_invariant (vn vo_pool : List WebPage) :
    ∀ (l : List WebPage) (acc : List Mapping × List String),
      (∀ x ∈ l, x ∈ vo_pool) →
      (∀ m ∈ acc.1,
        m.old_page ∈ vo_pool ∧ m.new_page ∈ vn ∧ m.new_page.html = m.old_page.html ∧
        m.confidence_score = 1 ∧ m.match_type = "exact_html" ∧ m.needs_review = false) →
      (∀ m ∈ acc.1, m.old_page.html ∈ acc.2) →
      acc.1.Pairwise (fun m1 m2 => m1.old_page.html ≠ m2.old_page.html) →
      (∀ m ∈ (l.foldl (htmlPruneStep vn) acc).1,
        m.old_page ∈ vo_pool ∧ m.new_page ∈ vn ∧ m.new_page.html = m.old_page.html ∧
        m.confidence_score = 1 ∧ m.match_type = "exact_html" ∧ m.needs_review = false) ∧
      ((l.foldl (htmlPruneStep vn) acc).1.Pairwise
        (fun m1 m2 => m1.old_page.html ≠ m2.old_page.html)) := by
  intro l
  induction l with
  | nil =>
    intro acc _ h2 _ h4
    exact ⟨h2, h4⟩
  | cons x xs ih =>
    intro acc hl h2 h3 h4
    rw [List.foldl_cons]
    rcases htmlPruneStep_cases vn acc x with hc | ⟨np, hlook, hcont, hc⟩ <;> rw [hc]
    · exact ih acc (fun y hy => hl y (List.mem_cons_of_mem x hy)) h2 h3 h4
    · obtain ⟨hnp_vn, hnp_html⟩ := newPageMapLookup_some hlook
      apply ih _ (fun y hy => hl y (List.mem_cons_of_mem x hy))
      · intro m hm
        rcases insertMapping_mem hm with hm' | hm'
        · exact h2 m hm'
        · subst hm'
          exact ⟨hl x (List.mem_cons_self x xs), hnp_vn, hnp_html, rfl, rfl, rfl⟩
      · intro m hm
        rcases insertMapping_mem hm with hm' | hm'
        · exact List.mem_cons_of_mem _ (h3 m hm')
        · subst hm'
          exact List.mem_cons_self _ _
      · rcases insertMapping_cases acc.1 ⟨x, np, 1, "exact_html", false⟩ with hc2 | hc2 <;>
          rw [hc2]
        · exact h4
        · rw [List.pairwise_append]
          refine ⟨h4, List.pairwise_singleton _ _, ?_⟩
          intro a ha b hb
          rw [List.mem_singleton.mp hb]
          intro heq
          have hmem : x.html ∈ acc.2 := heq ▸ h3 a ha
          have : acc.2.contains x.html = true := by
            simpa using hmem
          rw [this] at hcont
          exact absurd hcont (by simp)

/-- C4: `HtmlPruneStage` returns its input page lists unchanged together
with the mappings found; every mapping pairs an old page and a new page with
byte-identical HTML, both of length at least `MIN_HTML_LENGTH = 100`, with
confidence 1.0, match type `exact_html` and no review flag (so any
difference between two pages' HTML, even one whitespace character, yields no
mapping for that pair, and short pages are never matched); each new-page
HTML digest is consumed by at most one mapping (first match wins); and every
sufficiently long old page having a sufficiently long new page with
identical HTML receives exactly one mapping for its digest. -/
theorem c4_html_prune (old_pages new_pages : List WebPage) :
    (htmlPruneExecute old_pages new_pages).1 = old_pages ∧
    (htmlPruneExecute old_pages new_pages).2.1 = new_pages ∧
    (∀ m ∈ (htmlPruneExecute old_pages new_pages).2.2,
      m.old_page ∈ old_pages ∧ m.new_page ∈ new_pages ∧
      m.old_page.html = m.new_page.html ∧
      MIN_HTML_LENGTH ≤ m.old_page.html.length ∧
      MIN_HTML_LENGTH ≤ m.new_page.html.length ∧
      m.confidence_score = 1 ∧ m.match_type = "exact_html" ∧ m.needs_review = false) ∧
    ((htmlPruneExecute old_pages new_pages).2.2.Pairwise
      (fun m1 m2 => m1.new_page.html ≠ m2.new_page.html)) ∧
    (∀ po ∈ old_pages, MIN_HTML_LENGTH ≤ po.html.length →
      (∃ pn ∈ new_pages, MIN_HTML_LENGTH ≤ pn.html.length ∧ pn.html = po.html) →
      ∃ m ∈ (htmlPruneExecute old_pages new_pages).2.2, m.old_page.html = po.html) := by
  have hInv := htmlPrune_fold_invariant
    (new_pages.filter (fun p => MIN_HTML_LENGTH ≤ p.html.length))
    (old_pages.filter (fun p => MIN_HTML_LENGTH ≤ p.html.length))
    (old_pages.filter (fun p => MIN_HTML_LENGTH ≤ p.html.length))
    ([], []) (fun x hx => hx) (by simp) (by simp) (by simp)
  refine ⟨rfl, rfl, ?_, ?_, ?_⟩
  · intro m hm
    obtain ⟨ho, hn, hh, hc, ht, hr⟩ := hInv.1 m hm
    have ho' := List.mem_filter.mp ho
    have hn' := List.mem_filter.mp hn
    exact ⟨ho'.1, hn'.1, hh.symm, by simpa using ho'.2, by simpa using hn'.2, hc, ht, hr⟩
  · refine hInv.2.imp_of_mem ?_
    intro m1 m2 h1 h2 hR heq
    have e1 := (hInv.1 m1 h1).2.2.1
    have e2 := (hInv.1 m2 h2).2.2.1
    exact hR (e1 ▸ e2 ▸ heq)
  · intro po hpo hlen ⟨pn, hpn, hpnlen, hpnh⟩
    have hpo_valid : po ∈ old_pages.filter (fun p => MIN_HTML_LENGTH ≤ p.html.length) :=
      List.mem_filter.mpr ⟨hpo, by simpa using hlen⟩
    have hlook : (newPageMapLookup
        (new_pages.filter (fun p => MIN_HTML_LENGTH ≤ p.html.length)) po.html).isSome = true := by
      unfold newPageMapLookup
      rw [List.find?_isSome]
      exact ⟨pn, List.mem_reverse.mpr (List.mem_filter.mpr ⟨hpn, by simpa using hpnlen⟩),
        by simp [hpnh]⟩
    exact htmlPrune_fold_complete
      (new_pages.filter (fun p => MIN_HTML_LENGTH ≤ p.html.length))
      (old_pages.filter (fun p => MIN_HTML_LENGTH ≤ p.html.length))
      ([], []) (by simp) po hpo_valid hlook

/-- A 100-character HTML body, the minimum length `HtmlPruneStage` hashes. -/
def longHtml : String := String.mk (List.replicate 100 'a')

/-- An old page with 100 bytes of HTML. -/
def oldLongPage : WebPage := ⟨"http://old/long", longHtml⟩

/-- A new page with HTML byte-identical to `oldLongPage` under a different
URL. -/
def newLongPage : WebPage := ⟨"http://new/long", longHtml⟩

/-- Witness for C4: two pages with byte-identical 100-byte HTML under
different URLs produce an `exact_html` mapping. -/
theorem c4_html_prune_witness :
    ∃ m ∈ (htmlPruneExecute [oldLongPage] [newLongPage]).2.2,
      m.old_page.html = oldLongPage.html :=
  (c4_html_prune [oldLongPage] [newLongPage]).2.2.2.2 oldLongPage (by decide)
    (by decide) ⟨newLongPage, by decide, by decide, rfl⟩

end Redirx
